import Mathlib

/-!
Shallow embedding of the core game logic of the Recall card-matching game
(src/ui/state.rs, classic_penalties.rs, tri_penalties.rs, infinite.rs,
infinite_flow.rs, session_save.rs and the flip-resolution logic of app.rs).

Machine integers are modelled as `Nat` with explicit saturation/wrap where the
Rust code saturates (`saturating_add`, `saturating_sub`) or wraps
(`wrapping_add`).  Randomness (`rand::seq::SliceRandom::shuffle`) is modelled
by passing the shuffle as an explicit function parameter; theorems assume only
that it permutes its input.  File-system side effects (session_save's
load/save/clear) are modelled at the level of the pure
serialization/deserialization functions.
-/

namespace Recall

/-- Saturating `u8` addition (`u8::saturating_add`). -/
def u8SatAdd (a b : Nat) : Nat := min (a + b) 255

/-- Saturating `u32` addition (`u32::saturating_add`). -/
def u32SatAdd (a b : Nat) : Nat := min (a + b) 4294967295

/-- Wrapping `u64` addition by 1 (`u64::wrapping_add(1)`). -/
def u64WrapSucc (a : Nat) : Nat := (a + 1) % 18446744073709551616

/-- Rust `Ord::clamp` on unsigned integers. -/
def clampNat (v lo hi : Nat) : Nat := max lo (min v hi)

/-- TileStatus from state.rs. -/
inductive TileStatus where
  | Hidden
  | Flipped
  | Matched
deriving DecidableEq, Repr

/-- Tile from state.rs: a symbol value (opaque string; empty = filler) plus a status. -/
structure Tile where
  value : String
  status : TileStatus
deriving DecidableEq, Repr

/-- Difficulty from state.rs. -/
inductive Difficulty where
  | Easy
  | Medium
  | Hard
  | Impossible
  | Tri
  | RecallMode
deriving DecidableEq, Repr

/-- Difficulty::config from state.rs: (columns, rows, match_group_size). -/
def Difficulty.config : Difficulty → Nat × Nat × Nat
  | .Easy => (3, 4, 2)
  | .Medium => (4, 6, 2)
  | .Hard => (6, 7, 2)
  | .Impossible => (6, 8, 2)
  | .Tri => (6, 7, 3)
  | .RecallMode => (3, 4, 2)

/-- The game-logic fields of AppState from state.rs (UI widget handles, timer
handles and victory text are omitted: they are UI plumbing with no effect on
the core state machine). -/
structure AppState where
  tiles : List Tile
  flipped_indices : List Nat
  lock_input : Bool
  game_id : Nat
  grid_cols : Nat
  grid_rows : Nat
  match_size : Nat
  difficulty : Difficulty
  tri_level : Nat
  recall_level : Nat
  infinite_round : Nat
  impossible_mismatch_count : Nat
  impossible_punish_stage : Nat
  impossible_last_first_index : Option Nat
  impossible_same_first_streak : Nat
  seconds_elapsed : Nat
  run_mismatches : Nat
  run_matches : Nat
  active_session_started : Bool
deriving DecidableEq, Repr

/-- AppState::tri_config from state.rs. -/
def tri_config (level : Nat) : Nat × Nat × Nat :=
  match clampNat level 1 4 with
  | 1 => (4, 6, 3)
  | 2 => (5, 6, 3)
  | 3 => (6, 7, 3)
  | _ => (6, 8, 3)

/-- AppState::recall_config from state.rs. -/
def recall_config (level : Nat) : Nat × Nat × Nat :=
  match clampNat level 1 4 with
  | 1 => (3, 4, 2)
  | 2 => (4, 6, 2)
  | 3 => (6, 7, 2)
  | _ => (6, 8, 2)

/-- AppState::reset_impossible_pressure from state.rs. -/
def reset_impossible_pressure (st : AppState) : AppState :=
  { st with
    impossible_mismatch_count := 0
    impossible_punish_stage := 0
    impossible_last_first_index := none
    impossible_same_first_streak := 0 }

/-- AppState::apply_infinite_level_without_reset from state.rs. -/
def apply_infinite_level_without_reset (st : AppState) (level : Nat) : AppState :=
  let lvl := clampNat level 1 4
  let c := recall_config lvl
  { st with
    recall_level := lvl
    grid_cols := c.1
    grid_rows := c.2.1
    match_size := c.2.2 }

/-- AppState::advance_infinite_round from state.rs (`u32::saturating_add`). -/
def advance_infinite_round (st : AppState) : AppState :=
  { st with infinite_round := u32SatAdd st.infinite_round 1 }

/-- PunishmentPlan from classic_penalties.rs. -/
structure PunishmentPlan where
  reveal_count : Nat
  reveal_ms : Nat
  reshuffle_hidden : Bool
  reveal_all_hidden : Bool
  source_difficulty : Difficulty
deriving DecidableEq, Repr

/-- register_mismatch_and_plan_reshuffle_for from classic_penalties.rs.  The
Rust function mutates `st` and returns the optional plan; here it returns the
plan together with the updated state. -/
def register_mismatch_and_plan_reshuffle_for (st : AppState) (first_pick_index : Nat)
    (difficulty : Difficulty) : Option PunishmentPlan × AppState :=
  match difficulty with
  | .Easy => (none, st)
  | .Medium =>
    let st := { st with impossible_mismatch_count := u8SatAdd st.impossible_mismatch_count 1 }
    if st.impossible_mismatch_count < 5 then
      (none, st)
    else
      (some { reveal_count := 2, reveal_ms := 320, reshuffle_hidden := true,
              reveal_all_hidden := false, source_difficulty := difficulty },
       reset_impossible_pressure st)
  | .Hard =>
    let st := { st with impossible_mismatch_count := u8SatAdd st.impossible_mismatch_count 1 }
    if st.impossible_mismatch_count < 2 then
      (none, st)
    else
      (some { reveal_count := 0, reveal_ms := 950, reshuffle_hidden := true,
              reveal_all_hidden := true, source_difficulty := difficulty },
       reset_impossible_pressure st)
  | .Impossible =>
    let st :=
      if st.impossible_last_first_index = some first_pick_index then
        { st with impossible_same_first_streak := u8SatAdd st.impossible_same_first_streak 1 }
      else
        { st with impossible_last_first_index := some first_pick_index
                  impossible_same_first_streak := 1 }
    let st := { st with impossible_mismatch_count := u8SatAdd st.impossible_mismatch_count 1 }
    let threshold_hit := st.impossible_mismatch_count ≥ 3
    let repeated_first_hit := st.impossible_same_first_streak ≥ 2
    if ¬ (threshold_hit ∨ repeated_first_hit) then
      (none, st)
    else
      let st := { st with impossible_mismatch_count := 0
                          impossible_same_first_streak := 0
                          impossible_last_first_index := none
                          impossible_punish_stage := u8SatAdd st.impossible_punish_stage 1 }
      let sev : Nat × Nat :=
        if st.impossible_punish_stage = 1 then (7, 650)
        else if st.impossible_punish_stage = 2 then (5, 540)
        else (4, 430)
      (some { reveal_count := sev.1, reveal_ms := sev.2, reshuffle_hidden := true,
              reveal_all_hidden := false, source_difficulty := difficulty },
       st)
  | _ => (none, st)

/-- reset_penalty_after_match_for from classic_penalties.rs. -/
def reset_penalty_after_match_for (st : AppState) (difficulty : Difficulty) : AppState :=
  match difficulty with
  | .Medium | .Hard | .Impossible => reset_impossible_pressure st
  | _ => st

/-- register_mismatch_and_plan_reshuffle from tri_penalties.rs. -/
def tri_register_mismatch_and_plan_reshuffle (st : AppState) (first_pick_index : Nat) :
    Option PunishmentPlan × AppState :=
  match clampNat st.tri_level 1 4 with
  | 1 => (none, st)
  | 2 =>
    let st := { st with impossible_mismatch_count := u8SatAdd st.impossible_mismatch_count 1 }
    if st.impossible_mismatch_count < 5 then
      (none, st)
    else
      (some { reveal_count := 3, reveal_ms := 340, reshuffle_hidden := true,
              reveal_all_hidden := false, source_difficulty := .Tri },
       reset_impossible_pressure st)
  | 3 =>
    let st := { st with impossible_mismatch_count := u8SatAdd st.impossible_mismatch_count 1 }
    if st.impossible_mismatch_count < 3 then
      (none, st)
    else
      (some { reveal_count := 0, reveal_ms := 950, reshuffle_hidden := true,
              reveal_all_hidden := true, source_difficulty := .Tri },
       reset_impossible_pressure st)
  | _ =>
    let st :=
      if st.impossible_last_first_index = some first_pick_index then
        { st with impossible_same_first_streak := u8SatAdd st.impossible_same_first_streak 1 }
      else
        { st with impossible_last_first_index := some first_pick_index
                  impossible_same_first_streak := 1 }
    let st := { st with impossible_mismatch_count := u8SatAdd st.impossible_mismatch_count 1 }
    let threshold_hit := st.impossible_mismatch_count ≥ 3
    let repeated_first_hit := st.impossible_same_first_streak ≥ 2
    if ¬ (threshold_hit ∨ repeated_first_hit) then
      (none, st)
    else
      let st := { st with impossible_mismatch_count := 0
                          impossible_same_first_streak := 0
                          impossible_last_first_index := none
                          impossible_punish_stage := u8SatAdd st.impossible_punish_stage 1 }
      let hidden_count := (st.tiles.filter (fun t => t.status = TileStatus.Hidden)).length
      let sev : Nat × Nat :=
        if st.impossible_punish_stage = 1 then (9, 700)
        else if st.impossible_punish_stage = 2 then (7, 590)
        else (5, 480)
      (some { reveal_count := min sev.1 hidden_count, reveal_ms := sev.2,
              reshuffle_hidden := true, reveal_all_hidden := false,
              source_difficulty := .Tri },
       st)

/-- reset_penalty_after_match from tri_penalties.rs. -/
def tri_reset_penalty_after_match (st : AppState) : AppState :=
  if st.tri_level < 2 then st else reset_impossible_pressure st

/-- level_for_round from infinite.rs (breakpoints 3 / 6 / 10). -/
def level_for_round (round : Nat) : Nat :=
  if round ≤ 3 then 1
  else if round ≤ 6 then 2
  else if round ≤ 10 then 3
  else 4

/-- classic_difficulty_for_round from infinite.rs. -/
def classic_difficulty_for_round (round : Nat) : Difficulty :=
  if round ≤ 3 then .Easy
  else if round ≤ 6 then .Medium
  else if round ≤ 10 then .Hard
  else .Impossible

/-- hard_survival_rounds from infinite.rs (`round.saturating_sub(NORMAL_END_ROUND)`,
Nat subtraction is already saturating). -/
def hard_survival_rounds (round : Nat) : Nat := round - 6

/-- expert_survival_rounds from infinite.rs (`round.saturating_sub(HARD_END_ROUND)`). -/
def expert_survival_rounds (round : Nat) : Nat := round - 10

/-- LevelUpEvent from infinite.rs. -/
structure LevelUpEvent where
  from_level : Nat
  to_level : Nat
  round : Nat
deriving DecidableEq, Repr

/-- advance_round from infinite.rs, returning the optional level-up event
together with the updated state. -/
def advance_round (st : AppState) : Option LevelUpEvent × AppState :=
  if st.difficulty ≠ .RecallMode then (none, st)
  else
    let previous_classic_difficulty := classic_difficulty_for_round st.infinite_round
    let previous_level := st.recall_level
    let st := advance_infinite_round st
    let next_classic_difficulty := classic_difficulty_for_round st.infinite_round
    let st :=
      if next_classic_difficulty ≠ previous_classic_difficulty then
        reset_impossible_pressure st
      else st
    let target_level := level_for_round st.infinite_round
    if target_level ≠ previous_level then
      (some { from_level := previous_level, to_level := target_level,
              round := st.infinite_round },
       apply_infinite_level_without_reset st target_level)
    else
      (none, st)

/-- infinite_milestone_value from infinite_flow.rs. -/
def infinite_milestone_value (round : Nat) : Option (Difficulty × Nat) :=
  match classic_difficulty_for_round round with
  | .Hard =>
    let hard_survival := hard_survival_rounds round
    if hard_survival > 0 ∧ hard_survival % 5 = 0 then some (.Hard, hard_survival)
    else none
  | .Impossible =>
    let expert_survival := expert_survival_rounds round
    if expert_survival > 0 ∧ expert_survival % 5 = 0 then some (.Impossible, expert_survival)
    else none
  | _ => none

/-- Helper for the write-back loop of reshuffle_hidden_tiles: replace the
`value` of the tile at one index, leaving everything else unchanged
(`self.tiles[idx].value = value`). -/
def setTileValue : List Tile → Nat → String → List Tile
  | [], _, _ => []
  | t :: ts, 0, v => { t with value := v } :: ts
  | t :: ts, n + 1, v => t :: setTileValue ts n v

/-- Write-back loop of reshuffle_hidden_tiles: assign each (index, value) pair
in order. -/
def assignValues (tiles : List Tile) (pairs : List (Nat × String)) : List Tile :=
  pairs.foldl (fun ts p => setTileValue ts p.1 p.2) tiles

/-- Collection loop of reshuffle_hidden_tiles (`self.tiles.iter().enumerate()`
keeping indices whose status is Hidden), parameterized by the running index. -/
def hiddenIndicesFrom (i : Nat) : List Tile → List Nat
  | [] => []
  | t :: ts =>
    if t.status = TileStatus.Hidden then i :: hiddenIndicesFrom (i + 1) ts
    else hiddenIndicesFrom (i + 1) ts

/-- Indices of the currently-Hidden tiles, in increasing order. -/
def hiddenIndices (tiles : List Tile) : List Nat := hiddenIndicesFrom 0 tiles

/-- Values of the currently-Hidden tiles, in index order. -/
def hiddenValues (tiles : List Tile) : List String :=
  (tiles.filter (fun t => t.status = TileStatus.Hidden)).map (fun t => t.value)

/-- Structural reformulation of the write-back loop of reshuffle_hidden_tiles:
walk the tile list once, replacing the value of each Hidden tile by the next
element of `vs`.  Proved equal to `assignValues` over the zipped index list
below; used only inside proofs. -/
def assignHidden : List Tile → List String → List Tile
  | [], _ => []
  | t :: ts, vs =>
    if t.status = TileStatus.Hidden then
      match vs with
      | v :: vs2 => { t with value := v } :: assignHidden ts vs2
      | [] => t :: assignHidden ts []
    else t :: assignHidden ts vs

/-- AppState::reshuffle_hidden_tiles from state.rs.  The random
`hidden_values.shuffle(&mut rng)` is modelled by the explicit `shuffle`
parameter. -/
def reshuffle_hidden_tiles (shuffle : List String → List String) (st : AppState) : AppState :=
  let hidden_indices := hiddenIndices st.tiles
  let hidden_values := hiddenValues st.tiles
  if hidden_indices.length < 2 then st
  else
    { st with tiles := assignValues st.tiles (hidden_indices.zip (shuffle hidden_values)) }

/-- Symbol-group building loop of AppState::reset_game: for each group index
`i`, push `match_size` copies of `symbol_pool[i % symbol_pool.len()]`. -/
def group_values (symbol_pool : List String) (match_size : Nat) : Nat → List String
  | 0 => []
  | n + 1 =>
    group_values symbol_pool match_size n ++
      List.replicate match_size (symbol_pool.getD (n % symbol_pool.length) "")

/-- AppState::reset_game from state.rs.  The source's fixed 106-emoji `symbols`
array is abstracted as the `symbols` parameter (its contents are opaque symbol
strings; theorems only use that it is non-empty), and the two uniform shuffles
(`symbol_pool.shuffle`, `values.shuffle`) are the explicit parameters
`shufflePool` and `shuffleVals`. -/
def reset_game (shufflePool shuffleVals : List String → List String)
    (symbols : List String) (st : AppState) : AppState :=
  let st := { st with
    game_id := u64WrapSucc st.game_id
    tiles := []
    flipped_indices := []
    lock_input := false }
  let st := reset_impossible_pressure st
  let st :=
    if st.difficulty ≠ .RecallMode ∨ st.infinite_round ≤ 1 then
      { st with run_mismatches := 0, run_matches := 0 }
    else st
  let total_tiles := st.grid_cols * st.grid_rows
  let group_count := total_tiles / st.match_size
  let remainder := total_tiles % st.match_size
  let symbol_pool := shufflePool symbols
  let values := shuffleVals (group_values symbol_pool st.match_size group_count)
  { st with tiles :=
      values.map (fun v => { value := v, status := TileStatus.Hidden }) ++
        List.replicate remainder { value := "", status := TileStatus.Matched } }

/-- FlipOutcome from app.rs. -/
inductive FlipOutcome where
  | Continue
  | Mismatch
  | CompleteMatch
deriving DecidableEq, Repr

/-- Out-of-range tile reads are modelled with this default (the Rust code only
indexes in range, where the default is never used). -/
def defaultTile : Tile := { value := "", status := TileStatus.Hidden }

/-- evaluate_flip_outcome from app.rs. -/
def evaluate_flip_outcome (st : AppState) (indices : List Nat) (latest_index : Nat) :
    FlipOutcome :=
  if indices.length > 1 ∧
      (st.tiles.getD latest_index defaultTile).value ≠
        (st.tiles.getD (indices.getD 0 0) defaultTile).value then
    .Mismatch
  else if indices.length = st.match_size then .CompleteMatch
  else .Continue

/-- Helper for handle_tile_click: set the `status` of the tile at one index. -/
def setTileStatus : List Tile → Nat → TileStatus → List Tile
  | [], _, _ => []
  | t :: ts, 0, s => { t with status := s } :: ts
  | t :: ts, n + 1, s => t :: setTileStatus ts n s

/-- The synchronous state mutation of handle_tile_click from app.rs.  CSS/flip
animation calls, the persistence writes (save_current_run_and_refresh /
mark_run_dirty, which do not mutate game state) and the deferred
`glib::timeout_add_local` callbacks (which only schedule later steps) are
outside this synchronous step. -/
def handle_tile_click (st : AppState) (index : Nat) : AppState :=
  if index ≥ st.tiles.length then st
  else if st.lock_input = true ∨ (st.tiles.getD index defaultTile).status ≠ TileStatus.Hidden then st
  else
    let st := { st with
      tiles := setTileStatus st.tiles index TileStatus.Flipped
      flipped_indices := st.flipped_indices ++ [index] }
    let st := { st with active_session_started := true }
    let indices := st.flipped_indices
    match evaluate_flip_outcome st indices index with
    | .Mismatch =>
      let st := { st with run_mismatches := u32SatAdd st.run_mismatches 1 }
      let first_pick_index := indices.headD index
      let st :=
        if st.difficulty = .Tri then
          (tri_register_mismatch_and_plan_reshuffle st first_pick_index).2
        else
          let penalty_difficulty :=
            if st.difficulty = .RecallMode then classic_difficulty_for_round st.infinite_round
            else st.difficulty
          (register_mismatch_and_plan_reshuffle_for st first_pick_index penalty_difficulty).2
      { st with lock_input := true }
    | .CompleteMatch =>
      let st := { st with run_matches := u32SatAdd st.run_matches 1 }
      let st :=
        if st.difficulty = .Tri then tri_reset_penalty_after_match st
        else
          let penalty_difficulty :=
            if st.difficulty = .RecallMode then classic_difficulty_for_round st.infinite_round
            else st.difficulty
          reset_penalty_after_match_for st penalty_difficulty
      { st with lock_input := true }
    | .Continue => st

/-- SavedRun from session_save.rs. -/
structure SavedRun where
  difficulty : Difficulty
  tri_level : Nat
  recall_level : Nat
  infinite_round : Nat
  seconds_elapsed : Nat
  run_mismatches : Nat
  run_matches : Nat
  impossible_mismatch_count : Nat
  impossible_punish_stage : Nat
  impossible_last_first_index : Option Nat
  impossible_same_first_streak : Nat
  flipped_indices : List Nat
  tiles : List Tile
deriving DecidableEq, Repr

/-- difficulty_to_code from session_save.rs. -/
def difficulty_to_code : Difficulty → List Char
  | .Easy => "easy".toList
  | .Medium => "medium".toList
  | .Hard => "hard".toList
  | .Impossible => "impossible".toList
  | .Tri => "tri".toList
  | .RecallMode => "recall".toList

/-- difficulty_from_code from session_save.rs. -/
def difficulty_from_code (code : List Char) : Option Difficulty :=
  if code = "easy".toList then some .Easy
  else if code = "medium".toList then some .Medium
  else if code = "hard".toList then some .Hard
  else if code = "impossible".toList then some .Impossible
  else if code = "tri".toList then some .Tri
  else if code = "recall".toList then some .RecallMode
  else none

/-- escape_value from session_save.rs. -/
def escape_value : List Char → List Char
  | [] => []
  | c :: rest =>
    (if c = '\\' then ['\\', '\\']
     else if c = '\n' then ['\\', 'n']
     else if c = '|' then ['\\', '|']
     else [c]) ++ escape_value rest

/-- unescape_value from session_save.rs. -/
def unescape_value : List Char → List Char
  | [] => []
  | c :: rest =>
    if c = '\\' then
      match rest with
      | [] => ['\\']
      | d :: rest2 =>
        if d = 'n' then '\n' :: unescape_value rest2
        else if d = '|' then '|' :: unescape_value rest2
        else if d = '\\' then '\\' :: unescape_value rest2
        else '\\' :: d :: unescape_value rest2
    else c :: unescape_value rest

/-- split_escaped_pair from session_save.rs: split at the first `|` that is not
preceded by an (unconsumed) backslash. -/
def split_escaped_pair : List Char → Option (List Char × List Char)
  | [] => none
  | c :: rest =>
    if c = '\\' then
      match rest with
      | [] => none
      | d :: rest2 => (split_escaped_pair rest2).map (fun p => (c :: d :: p.1, p.2))
    else if c = '|' then some ([], rest)
    else (split_escaped_pair rest).map (fun p => (c :: p.1, p.2))

/-- encode_tile from session_save.rs. -/
def encode_tile (tile : Tile) : List Char :=
  let status : Char :=
    match tile.status with
    | .Hidden => 'H'
    | .Flipped => 'F'
    | .Matched => 'M'
  status :: '|' :: escape_value tile.value.toList

/-- parse_tile from session_save.rs. -/
def parse_tile (raw : List Char) : Option Tile :=
  match split_escaped_pair raw with
  | none => none
  | some (status_code, value_code) =>
    match status_code with
    | [c] =>
      match c with
      | 'H' => some { status := TileStatus.Hidden, value := ⟨unescape_value value_code⟩ }
      | 'F' => some { status := TileStatus.Flipped, value := ⟨unescape_value value_code⟩ }
      | 'M' => some { status := TileStatus.Matched, value := ⟨unescape_value value_code⟩ }
      | _ => none
    | _ => none

/-- Decimal rendering of a non-negative integer, as Rust's `Display` writes it. -/
def natChars (n : Nat) : List Char :=
  if n = 0 then ['0'] else ((Nat.digits 10 n).map Nat.digitChar).reverse

/-- Numeric value of a decimal digit character. -/
def charDigit (c : Char) : Nat := c.toNat - '0'.toNat

/-- Value of a big-endian list of decimal digit characters. -/
def digitsVal (l : List Char) : Nat := l.foldl (fun acc c => acc * 10 + charDigit c) 0

/-- Rust `str::parse` for an unsigned integer type: an optional leading `+`,
then one or more decimal digits; the per-type overflow check is applied by the
callers below. -/
def parseNatChars (l : List Char) : Option Nat :=
  let l := if l.head? = some '+' then l.tail else l
  if l ≠ [] ∧ l.all Char.isDigit then some (digitsVal l) else none

/-- `rest.parse::<u8>()`. -/
def parseU8 (l : List Char) : Option Nat :=
  (parseNatChars l).bind fun n => if n ≤ 255 then some n else none

/-- `rest.parse::<u32>()`. -/
def parseU32 (l : List Char) : Option Nat :=
  (parseNatChars l).bind fun n => if n ≤ 4294967295 then some n else none

/-- `rest.parse::<usize>()` (64-bit target). -/
def parseUsize (l : List Char) : Option Nat :=
  (parseNatChars l).bind fun n => if n ≤ 18446744073709551615 then some n else none

/-- Rust `str::trim` (restricted to the ASCII whitespace that can occur in the
save format). -/
def trimChars (l : List Char) : List Char :=
  ((l.dropWhile Char.isWhitespace).reverse.dropWhile Char.isWhitespace).reverse

/-- Strip a concrete prefix from a line, returning the remainder
(`str::strip_prefix`). -/
def stripPre : List Char → List Char → Option (List Char)
  | [], l => some l
  | _ :: _, [] => none
  | p :: ps, c :: cs => if p = c then stripPre ps cs else none

/-- Strip a `key=` prefix from a line. -/
def stripKey (key : String) (line : List Char) : Option (List Char) :=
  stripPre (key.toList ++ ['=']) line

/-- Build a `key=value` line. -/
def kvLine (key : String) (value : List Char) : List Char :=
  key.toList ++ '=' :: value

/-- `join(",")` over rendered indices. -/
def joinComma : List (List Char) → List Char
  | [] => []
  | x :: xs =>
    match xs with
    | [] => x
    | _ :: _ => x ++ ',' :: joinComma xs

/-- Rust `str::split(',')`. -/
def splitComma : List Char → List (List Char)
  | [] => [[]]
  | c :: rest =>
    if c = ',' then [] :: splitComma rest
    else
      match splitComma rest with
      | x :: xs => (c :: x) :: xs
      | [] => [[c]]

/-- serialize_saved_run from session_save.rs, at line granularity: the file
contents are these lines each followed by `\n` (`SAVE_VERSION` is 1). -/
def serialize_saved_run (run : SavedRun) : List (List Char) :=
  [ kvLine "version" (natChars 1)
  , kvLine "started" ['1']
  , kvLine "difficulty" (difficulty_to_code run.difficulty)
  , kvLine "tri_level" (natChars run.tri_level)
  , kvLine "recall_level" (natChars run.recall_level)
  , kvLine "infinite_round" (natChars run.infinite_round)
  , kvLine "seconds_elapsed" (natChars run.seconds_elapsed)
  , kvLine "run_mismatches" (natChars run.run_mismatches)
  , kvLine "run_matches" (natChars run.run_matches)
  , kvLine "impossible_mismatch_count" (natChars run.impossible_mismatch_count)
  , kvLine "impossible_punish_stage" (natChars run.impossible_punish_stage)
  , kvLine "impossible_last_first_index"
      (match run.impossible_last_first_index with
       | some v => natChars v
       | none => ['-'])
  , kvLine "impossible_same_first_streak" (natChars run.impossible_same_first_streak)
  , kvLine "flipped_indices" (joinComma (run.flipped_indices.map natChars))
  ] ++ run.tiles.map (fun t => kvLine "tile" (encode_tile t))

/-- Accumulator of the parse loop of parse_saved_run, with the field defaults
of session_save.rs. -/
structure ParseAcc where
  version : Option Nat := none
  started : Bool := false
  difficulty : Option Difficulty := none
  tri_level : Nat := 3
  recall_level : Nat := 2
  infinite_round : Nat := 1
  seconds_elapsed : Nat := 0
  run_mismatches : Nat := 0
  run_matches : Nat := 0
  impossible_mismatch_count : Nat := 0
  impossible_punish_stage : Nat := 0
  impossible_last_first_index : Option Nat := none
  impossible_same_first_streak : Nat := 0
  flipped_indices : List Nat := []
  tiles : List Tile := []
deriving DecidableEq, Repr

/-- One iteration of the parse loop of parse_saved_run (a `none` result is the
loop's early `return None` through `?`). -/
def parse_line (acc : ParseAcc) (line : List Char) : Option ParseAcc :=
  match stripKey "version" line with
  | some rest => some { acc with version := parseU8 rest }
  | none =>
  match stripKey "started" line with
  | some rest => some { acc with started := trimChars rest = ['1'] }
  | none =>
  match stripKey "difficulty" line with
  | some rest => some { acc with difficulty := difficulty_from_code (trimChars rest) }
  | none =>
  match stripKey "tri_level" line with
  | some rest => (parseU8 rest).map fun n => { acc with tri_level := clampNat n 1 4 }
  | none =>
  match stripKey "recall_level" line with
  | some rest => (parseU8 rest).map fun n => { acc with recall_level := clampNat n 1 4 }
  | none =>
  match stripKey "infinite_round" line with
  | some rest => (parseU32 rest).map fun n => { acc with infinite_round := max n 1 }
  | none =>
  match stripKey "seconds_elapsed" line with
  | some rest => (parseU32 rest).map fun n => { acc with seconds_elapsed := n }
  | none =>
  match stripKey "run_mismatches" line with
  | some rest => (parseU32 rest).map fun n => { acc with run_mismatches := n }
  | none =>
  match stripKey "run_matches" line with
  | some rest => (parseU32 rest).map fun n => { acc with run_matches := n }
  | none =>
  match stripKey "impossible_mismatch_count" line with
  | some rest => (parseU8 rest).map fun n => { acc with impossible_mismatch_count := n }
  | none =>
  match stripKey "impossible_punish_stage" line with
  | some rest => (parseU8 rest).map fun n => { acc with impossible_punish_stage := n }
  | none =>
  match stripKey "impossible_last_first_index" line with
  | some rest =>
    if trimChars rest = ['-'] then some { acc with impossible_last_first_index := none }
    else (parseUsize rest).map fun v => { acc with impossible_last_first_index := some v }
  | none =>
  match stripKey "impossible_same_first_streak" line with
  | some rest => (parseU8 rest).map fun n => { acc with impossible_same_first_streak := n }
  | none =>
  match stripKey "flipped_indices" line with
  | some rest =>
    let trimmed := trimChars rest
    if trimmed = [] then some { acc with flipped_indices := [] }
    else
      (((splitComma trimmed).map trimChars).filter (fun part => part ≠ [])
          |>.mapM parseUsize).map
        fun idxs => { acc with flipped_indices := idxs }
  | none =>
  match stripKey "tile" line with
  | some rest => (parse_tile rest).map fun t => { acc with tiles := acc.tiles ++ [t] }
  | none => some acc

/-- The line loop of parse_saved_run. -/
def parse_lines (acc : ParseAcc) : List (List Char) → Option ParseAcc
  | [] => some acc
  | line :: rest =>
    match parse_line acc line with
    | none => none
    | some acc => parse_lines acc rest

/-- parse_saved_run from session_save.rs, at line granularity. -/
def parse_saved_run (lines : List (List Char)) : Option SavedRun :=
  match parse_lines {} lines with
  | none => none
  | some acc =>
    if acc.version ≠ some 1 ∨ acc.started = false then none
    else
      match acc.difficulty with
      | none => none
      | some d =>
        some { difficulty := d
               tri_level := acc.tri_level
               recall_level := acc.recall_level
               infinite_round := acc.infinite_round
               seconds_elapsed := acc.seconds_elapsed
               run_mismatches := acc.run_mismatches
               run_matches := acc.run_matches
               impossible_mismatch_count := acc.impossible_mismatch_count
               impossible_punish_stage := acc.impossible_punish_stage
               impossible_last_first_index := acc.impossible_last_first_index
               impossible_same_first_streak := acc.impossible_same_first_streak
               flipped_indices := acc.flipped_indices
               tiles := acc.tiles }

/-- Concrete state used by witnesses and counterexamples: a freshly selected
difficulty with all pressure counters at their reset values (the state
`set_difficulty` would leave, before board generation). -/
def freshState (d : Difficulty) : AppState :=
  { tiles := []
    flipped_indices := []
    lock_input := false
    game_id := 0
    grid_cols := 0
    grid_rows := 0
    match_size := 2
    difficulty := d
    tri_level := 3
    recall_level := 2
    infinite_round := 1
    impossible_mismatch_count := 0
    impossible_punish_stage := 0
    impossible_last_first_index := none
    impossible_same_first_streak := 0
    seconds_elapsed := 0
    run_mismatches := 0
    run_matches := 0
    active_session_started := false }

/-- State after one registered mismatch with first pick 0 on a fresh
Impossible-difficulty state. -/
def mismatchOnce : AppState :=
  (register_mismatch_and_plan_reshuffle_for (freshState .Impossible) 0 .Impossible).2

/-- State after a second consecutive registered mismatch with the same first
pick 0 (the repeated-first-pick punishment fires here). -/
def mismatchTwice : AppState :=
  (register_mismatch_and_plan_reshuffle_for mismatchOnce 0 .Impossible).2

/- ------------------------------------------------------------------ -/
/- Theorems.                                                           -/
/- ------------------------------------------------------------------ -/

/-- C1 (counterexample): the claim asserts that with the Hard tier starting at
round 7 a milestone fires at round 12 (survival 5); in the code
`infinite_milestone_value 12 = none` (round 12 lies in the Impossible tier and
`expert_survival_rounds 12 = 2`), and round 11 also yields none. -/
theorem c1_milestone_counterexample :
    infinite_milestone_value 12 = none ∧ infinite_milestone_value 11 = none := by
  decide

/-- C1 (amended): `infinite_milestone_value round` is `Some` exactly when the
classic difficulty for the round is Impossible and the survival count
`round - 10` (counting the first Impossible round, 11, as survival 1) is a
positive multiple of 5 — i.e. at rounds 15, 20, 25, …, always with tier
Impossible.  In the Hard tier (rounds 7–10) the survival count `round - 6`
only takes values 1–4, so a Hard milestone never fires, and no milestone fires
at round 11 or 12. -/
theorem c1_milestone_characterization (round : Nat) :
    infinite_milestone_value round =
      if 15 ≤ round ∧ round % 5 = 0 then some (Difficulty.Impossible, round - 10)
      else none := by
  simp only [infinite_milestone_value, classic_difficulty_for_round, hard_survival_rounds,
    expert_survival_rounds]
  by_cases h3 : round ≤ 3
  · simp only [if_pos h3]
    rw [if_neg (by omega)]
  · by_cases h6 : round ≤ 6
    · simp only [if_neg h3, if_pos h6]
      rw [if_neg (by omega)]
    · by_cases h10 : round ≤ 10
      · simp only [if_neg h3, if_neg h6, if_pos h10]
        rw [if_neg (show ¬(round - 6 > 0 ∧ (round - 6) % 5 = 0) by omega),
          if_neg (by omega)]
      · simp only [if_neg h3, if_neg h6, if_neg h10]
        by_cases hc : 15 ≤ round ∧ round % 5 = 0
        · rw [if_pos (show round - 10 > 0 ∧ (round - 10) % 5 = 0 by omega), if_pos hc]
        · rw [if_neg (show ¬(round - 10 > 0 ∧ (round - 10) % 5 = 0) by omega), if_neg hc]

/-- C6: the classic penalty engine: Easy never punishes and leaves the state
unchanged; Medium punishes exactly at the 5th cumulative mismatch since the
last reset (reveal 2 tiles for 320ms with reshuffle, not reveal-all) and then
resets the pressure counters; Hard punishes exactly at the 2nd (reshuffle and
reveal all hidden tiles for 950ms) and then resets. -/
theorem c6_classic_penalty_thresholds (s : AppState) (i : Nat) :
    register_mismatch_and_plan_reshuffle_for s i .Easy = (none, s)
    ∧ register_mismatch_and_plan_reshuffle_for s i .Medium =
        (if s.impossible_mismatch_count + 1 < 5 then
          ((none : Option PunishmentPlan),
            { s with impossible_mismatch_count := u8SatAdd s.impossible_mismatch_count 1 })
         else
          (some { reveal_count := 2, reveal_ms := 320, reshuffle_hidden := true,
                  reveal_all_hidden := false, source_difficulty := .Medium },
            reset_impossible_pressure s))
    ∧ register_mismatch_and_plan_reshuffle_for s i .Hard =
        (if s.impossible_mismatch_count + 1 < 2 then
          ((none : Option PunishmentPlan),
            { s with impossible_mismatch_count := u8SatAdd s.impossible_mismatch_count 1 })
         else
          (some { reveal_count := 0, reveal_ms := 950, reshuffle_hidden := true,
                  reveal_all_hidden := true, source_difficulty := .Hard },
            reset_impossible_pressure s)) := by
  refine ⟨rfl, ?_, ?_⟩
  · simp only [register_mismatch_and_plan_reshuffle_for, u8SatAdd]
    split_ifs with h1 h2 <;> try rfl
    · exact absurd (show s.impossible_mismatch_count + 1 < 5 by omega) h2
    · exact absurd (show min (s.impossible_mismatch_count + 1) 255 < 5 by omega) h1
  · simp only [register_mismatch_and_plan_reshuffle_for, u8SatAdd]
    split_ifs with h1 h2 <;> try rfl
    · exact absurd (show s.impossible_mismatch_count + 1 < 2 by omega) h2
    · exact absurd (show min (s.impossible_mismatch_count + 1) 255 < 2 by omega) h1

/-- C7: the Infinite tier breakpoints, and `advance_round` at round 10 (in
Infinite mode with the tier-consistent level 3) advancing to round 11 with a
level-up event from level 3 to level 4 at round 11. -/
theorem c7_infinite_tier_mapping :
    level_for_round 3 = 1 ∧ level_for_round 4 = 2 ∧ level_for_round 6 = 2
    ∧ level_for_round 7 = 3 ∧ level_for_round 10 = 3 ∧ level_for_round 11 = 4
    ∧ ∀ s : AppState, s.difficulty = .RecallMode → s.infinite_round = 10 →
        s.recall_level = 3 →
        (advance_round s).1 = some { from_level := 3, to_level := 4, round := 11 }
        ∧ (advance_round s).2.infinite_round = 11
        ∧ (advance_round s).2.recall_level = 4 := by
  refine ⟨rfl, rfl, rfl, rfl, rfl, rfl, ?_⟩
  intro s hd hr hl
  simp [advance_round, advance_infinite_round, u32SatAdd, apply_infinite_level_without_reset,
    recall_config, clampNat, reset_impossible_pressure, classic_difficulty_for_round,
    level_for_round, hd, hr, hl]

/-- C7 (witness): the theorem instantiated at a concrete Infinite-mode state at
round 10, level 3. -/
theorem c7_infinite_tier_mapping_witness :
    (advance_round { freshState .RecallMode with infinite_round := 10, recall_level := 3 }).1 =
      some { from_level := 3, to_level := 4, round := 11 }
    ∧ (advance_round
        { freshState .RecallMode with infinite_round := 10, recall_level := 3 }).2.infinite_round = 11
    ∧ (advance_round
        { freshState .RecallMode with infinite_round := 10, recall_level := 3 }).2.recall_level = 4 :=
  c7_infinite_tier_mapping.2.2.2.2.2.2 _ rfl rfl rfl

/-- C10: `reset_game` keeps the run_matches / run_mismatches counters exactly
when the difficulty is Infinite (RecallMode) and the infinite round is greater
than 1; in every other case both counters are reset to 0. -/
theorem c10_reset_game_counters (sp sv : List String → List String)
    (pool : List String) (s : AppState) :
    (reset_game sp sv pool s).run_matches =
      (if s.difficulty = .RecallMode ∧ 1 < s.infinite_round then s.run_matches else 0)
    ∧ (reset_game sp sv pool s).run_mismatches =
      (if s.difficulty = .RecallMode ∧ 1 < s.infinite_round then s.run_mismatches else 0) := by
  by_cases hc : s.difficulty = .RecallMode ∧ 1 < s.infinite_round
  · have hneg : ¬(s.difficulty ≠ .RecallMode ∨ s.infinite_round ≤ 1) := by
      rintro (h | h)
      · exact h hc.1
      · omega
    simp only [reset_game, reset_impossible_pressure]
    rw [if_neg hneg, if_pos hc, if_pos hc]
    exact ⟨rfl, rfl⟩
  · have hpos : s.difficulty ≠ .RecallMode ∨ s.infinite_round ≤ 1 := by
      by_cases hd : s.difficulty = .RecallMode
      · right
        rcases Nat.lt_or_ge 1 s.infinite_round with h | h
        · exact absurd ⟨hd, h⟩ hc
        · omega
      · exact Or.inl hd
    simp only [reset_game, reset_impossible_pressure]
    rw [if_pos hpos, if_neg hc, if_neg hc]
    exact ⟨rfl, rfl⟩

/-- C2 (counterexample): the claim asserts that `punish_stage` is never reset
except on a difficulty/tier change and in particular that a successful match
between two escalation cycles does not reset it (so consecutive escalations
yield stages 1, 2, …).  In the code, after an escalation has set the stage to
1, `reset_penalty_after_match_for` on Impossible sets it back to 0, and the
next escalation cycle fires with stage-1 severity (reveal 7 / 650ms) again,
not stage 2. -/
theorem c2_punish_stage_counterexample :
    mismatchTwice.impossible_punish_stage = 1
    ∧ (reset_penalty_after_match_for mismatchTwice .Impossible).impossible_punish_stage = 0
    ∧ (register_mismatch_and_plan_reshuffle_for
        (register_mismatch_and_plan_reshuffle_for
          (reset_penalty_after_match_for mismatchTwice .Impossible) 0 .Impossible).2
        0 .Impossible).1 =
      some { reveal_count := 7, reveal_ms := 650, reshuffle_hidden := true,
             reveal_all_hidden := false, source_difficulty := .Impossible } := by
  decide

/-- C2 (amended): on Impossible, whenever a punishment fires `punish_stage` is
incremented (saturating at 255) and the plan's severity follows the stage
table — stage 1 reveals 7 tiles for 650ms, stage 2 reveals 5 for 540ms, stage
3 and above reveals 4 for 430ms — always with reshuffle and never reveal-all;
but the stage is reset to 0 not only on a difficulty/tier change: a successful
match (`reset_penalty_after_match_for` on Impossible) also resets it, so the
stages only escalate across cycles with no intervening match. -/
theorem c2_punish_stage_escalation (s : AppState) (i : Nat) (p : PunishmentPlan)
    (h : (register_mismatch_and_plan_reshuffle_for s i .Impossible).1 = some p) :
    (register_mismatch_and_plan_reshuffle_for s i .Impossible).2.impossible_punish_stage =
      u8SatAdd s.impossible_punish_stage 1
    ∧ p.reshuffle_hidden = true
    ∧ p.reveal_all_hidden = false
    ∧ ((register_mismatch_and_plan_reshuffle_for s i .Impossible).2.impossible_punish_stage = 1 →
        p.reveal_count = 7 ∧ p.reveal_ms = 650)
    ∧ ((register_mismatch_and_plan_reshuffle_for s i .Impossible).2.impossible_punish_stage = 2 →
        p.reveal_count = 5 ∧ p.reveal_ms = 540)
    ∧ (3 ≤ (register_mismatch_and_plan_reshuffle_for s i .Impossible).2.impossible_punish_stage →
        p.reveal_count = 4 ∧ p.reveal_ms = 430)
    ∧ (reset_penalty_after_match_for s .Impossible).impossible_punish_stage = 0 := by
  simp only [register_mismatch_and_plan_reshuffle_for, u8SatAdd] at h ⊢
  by_cases hL : s.impossible_last_first_index = some i
  · rw [if_pos hL] at h ⊢
    dsimp only at h ⊢
    by_cases hP : min (s.impossible_mismatch_count + 1) 255 ≥ 3 ∨
        min (s.impossible_same_first_streak + 1) 255 ≥ 2
    · rw [if_neg (not_not_intro hP)] at h ⊢
      dsimp only at h ⊢
      obtain rfl := Option.some.inj h
      refine ⟨rfl, rfl, rfl, ?_, ?_, ?_, rfl⟩
      · intro h1
        rw [if_pos h1]
        exact ⟨rfl, rfl⟩
      · intro h2
        rw [if_neg (by omega), if_pos h2]
        exact ⟨rfl, rfl⟩
      · intro h3
        rw [if_neg (by omega), if_neg (by omega)]
        exact ⟨rfl, rfl⟩
    · rw [if_pos hP] at h
      exact absurd h (by simp)
  · rw [if_neg hL] at h ⊢
    dsimp only at h ⊢
    by_cases hP : min (s.impossible_mismatch_count + 1) 255 ≥ 3 ∨ (1 : Nat) ≥ 2
    · rw [if_neg (not_not_intro hP)] at h ⊢
      dsimp only at h ⊢
      obtain rfl := Option.some.inj h
      refine ⟨rfl, rfl, rfl, ?_, ?_, ?_, rfl⟩
      · intro h1
        rw [if_pos h1]
        exact ⟨rfl, rfl⟩
      · intro h2
        rw [if_neg (by omega), if_pos h2]
        exact ⟨rfl, rfl⟩
      · intro h3
        rw [if_neg (by omega), if_neg (by omega)]
        exact ⟨rfl, rfl⟩
    · rw [if_pos hP] at h
      exact absurd h (by simp)

/-- C2 (witness): the amended theorem instantiated at the concrete state
reached after one mismatch at first pick 0 (where the second same-pick
mismatch fires the stage-1 punishment). -/
theorem c2_punish_stage_escalation_witness :
    (register_mismatch_and_plan_reshuffle_for mismatchOnce 0 .Impossible).2.impossible_punish_stage =
      u8SatAdd mismatchOnce.impossible_punish_stage 1
    ∧ (reset_penalty_after_match_for mismatchOnce .Impossible).impossible_punish_stage = 0 :=
  ⟨(c2_punish_stage_escalation mismatchOnce 0 _ rfl).1,
   (c2_punish_stage_escalation mismatchOnce 0 _ rfl).2.2.2.2.2.2⟩

/-- C3 (counterexample): the claim asserts that for ANY two consecutive
registered mismatches with the same first pick the second returns a plan.
After three consecutive mismatches all with first pick 0 from a fresh
Impossible state, the second and third calls are such a pair (the second
fires), yet the third returns none — the punishment at the second call reset
the same-first streak — even though the cumulative counter is below the
threshold 3 at the third call. -/
theorem c3_repeated_first_pick_counterexample :
    (register_mismatch_and_plan_reshuffle_for mismatchOnce 0 .Impossible).1.isSome = true
    ∧ mismatchTwice.impossible_mismatch_count < 3
    ∧ (register_mismatch_and_plan_reshuffle_for mismatchTwice 0 .Impossible).1 = none := by
  decide

/-- C3 (amended): on Impossible, for any two consecutive registered mismatches
with the same first-pick index where the first does NOT itself fire a
punishment, the second always returns a non-none plan (in particular even when
the cumulative mismatch counter is below its threshold 3 — no assumption on
the counter is needed). -/
theorem c3_repeated_first_pick_fires (s : AppState) (i : Nat)
    (h : (register_mismatch_and_plan_reshuffle_for s i .Impossible).1 = none) :
    ((register_mismatch_and_plan_reshuffle_for
        (register_mismatch_and_plan_reshuffle_for s i .Impossible).2 i .Impossible).1).isSome =
      true := by
  have key : ∀ t : AppState, t.impossible_last_first_index = some i →
      1 ≤ t.impossible_same_first_streak →
      ((register_mismatch_and_plan_reshuffle_for t i .Impossible).1).isSome = true := by
    intro t h1 h2
    simp only [register_mismatch_and_plan_reshuffle_for, u8SatAdd]
    rw [if_pos h1]
    dsimp only
    have hcond : min (t.impossible_mismatch_count + 1) 255 ≥ 3 ∨
        min (t.impossible_same_first_streak + 1) 255 ≥ 2 := Or.inr (by omega)
    rw [if_neg (not_not_intro hcond)]
    rfl
  have hstate :
      (register_mismatch_and_plan_reshuffle_for s i .Impossible).2.impossible_last_first_index =
        some i
      ∧ 1 ≤ (register_mismatch_and_plan_reshuffle_for s i
          .Impossible).2.impossible_same_first_streak := by
    simp only [register_mismatch_and_plan_reshuffle_for, u8SatAdd] at h ⊢
    by_cases hL : s.impossible_last_first_index = some i
    · rw [if_pos hL] at h ⊢
      dsimp only at h ⊢
      by_cases hP : min (s.impossible_mismatch_count + 1) 255 ≥ 3 ∨
          min (s.impossible_same_first_streak + 1) 255 ≥ 2
      · rw [if_neg (not_not_intro hP)] at h
        exact absurd h (by simp)
      · rw [if_pos hP]
        exact ⟨hL, show 1 ≤ min (s.impossible_same_first_streak + 1) 255 by omega⟩
    · rw [if_neg hL] at h ⊢
      dsimp only at h ⊢
      by_cases hP : min (s.impossible_mismatch_count + 1) 255 ≥ 3 ∨ (1 : Nat) ≥ 2
      · rw [if_neg (not_not_intro hP)] at h
        exact absurd h (by simp)
      · rw [if_pos hP]
        exact ⟨rfl, Nat.le_refl 1⟩
  exact key _ hstate.1 hstate.2

/-- C3 (witness): the amended theorem instantiated at a fresh Impossible state
and first pick 0 (the first mismatch returns none, the second fires). -/
theorem c3_repeated_first_pick_fires_witness :
    ((register_mismatch_and_plan_reshuffle_for
        (register_mismatch_and_plan_reshuffle_for (freshState .Impossible) 0 .Impossible).2
        0 .Impossible).1).isSome = true :=
  c3_repeated_first_pick_fires (freshState .Impossible) 0 rfl

/-- C9: every invalid flip input — index out of range, input locked, or the
targeted tile not Hidden — leaves the state completely unchanged (no tile
status, flipped-index list, counter or lock flag changes, and no error). -/
theorem c9_invalid_flip_noop (s : AppState) (i : Nat)
    (h : s.tiles.length ≤ i ∨ s.lock_input = true
      ∨ (s.tiles.getD i defaultTile).status ≠ TileStatus.Hidden) :
    handle_tile_click s i = s := by
  unfold handle_tile_click
  rcases h with h | h | h
  · rw [if_pos (show i ≥ s.tiles.length from h)]
  · by_cases hlen : i ≥ s.tiles.length
    · rw [if_pos hlen]
    · rw [if_neg hlen, if_pos (Or.inl h)]
  · by_cases hlen : i ≥ s.tiles.length
    · rw [if_pos hlen]
    · rw [if_neg hlen, if_pos (Or.inr h)]

/-- C9 (witness): the theorem instantiated at a concrete locked state, at a
concrete out-of-range index, and at a concrete already-flipped tile. -/
theorem c9_invalid_flip_noop_witness :
    handle_tile_click { freshState .Easy with
      tiles := [{ value := "a", status := .Hidden }], lock_input := true } 0 =
      { freshState .Easy with tiles := [{ value := "a", status := .Hidden }], lock_input := true }
    ∧ handle_tile_click { freshState .Easy with
        tiles := [{ value := "a", status := .Hidden }] } 5 =
      { freshState .Easy with tiles := [{ value := "a", status := .Hidden }] }
    ∧ handle_tile_click { freshState .Easy with
        tiles := [{ value := "a", status := .Flipped }] } 0 =
      { freshState .Easy with tiles := [{ value := "a", status := .Flipped }] } :=
  ⟨c9_invalid_flip_noop _ 0 (Or.inr (Or.inl rfl)),
   c9_invalid_flip_noop _ 5 (Or.inl (by decide)),
   c9_invalid_flip_noop _ 0 (Or.inr (Or.inr (by decide)))⟩

/-- Assigning to the empty value stream leaves the tiles unchanged. -/
theorem assignHidden_nil (ts : List Tile) : assignHidden ts [] = ts := by
  induction ts with
  | nil => rfl
  | cons t ts ih => by_cases h : t.status = TileStatus.Hidden <;> simp [assignHidden, h, ih]

/-- Adding one to every index then zipping is zipping then shifting the pairs. -/
theorem zip_map_add_one (l : List Nat) (l' : List String) :
    (l.map (· + 1)).zip l' = (l.zip l').map (fun p => (p.1 + 1, p.2)) := by
  induction l generalizing l' with
  | nil => rfl
  | cons x l ih =>
    cases l' with
    | nil => rfl
    | cons y l' => simp [ih]

/-- Composing two index shifts. -/
theorem map_add_shift (l : List Nat) (i : Nat) :
    (l.map (· + 1)).map (· + i) = l.map (fun x => x + (i + 1)) := by
  rw [List.map_map]
  congr 1
  funext x
  simp only [Function.comp_apply]
  omega

/-- The enumeration offset only shifts the collected hidden indices. -/
theorem hiddenIndicesFrom_shift (ts : List Tile) :
    ∀ i, hiddenIndicesFrom i ts = (hiddenIndicesFrom 0 ts).map (· + i) := by
  induction ts with
  | nil => intro i; rfl
  | cons t ts ih =>
    intro i
    by_cases h : t.status = TileStatus.Hidden
    · simp only [hiddenIndicesFrom, if_pos h, List.map_cons, Nat.zero_add]
      rw [ih (i + 1), ih 1, map_add_shift]
    · simp only [hiddenIndicesFrom, if_neg h]
      rw [ih (i + 1), ih 1, map_add_shift]

/-- There are as many hidden indices as Hidden tiles. -/
theorem hiddenIndicesFrom_length (ts : List Tile) :
    ∀ i, (hiddenIndicesFrom i ts).length =
      (ts.filter (fun t => t.status = TileStatus.Hidden)).length := by
  induction ts with
  | nil => intro i; rfl
  | cons t ts ih =>
    intro i
    by_cases h : t.status = TileStatus.Hidden <;>
      simp [hiddenIndicesFrom, h, List.filter_cons, ih]

/-- There are as many hidden indices as Hidden tiles. -/
theorem hiddenIndices_length (ts : List Tile) :
    (hiddenIndices ts).length = (ts.filter (fun t => t.status = TileStatus.Hidden)).length :=
  hiddenIndicesFrom_length ts 0

/-- Folding index/value pairs whose indices are all shifted by one over a cons
just skips the head. -/
theorem assignValues_cons_shift (t : Tile) (ts : List Tile) (pairs : List (Nat × String)) :
    assignValues (t :: ts) (pairs.map (fun p => (p.1 + 1, p.2))) = t :: assignValues ts pairs := by
  induction pairs generalizing t ts with
  | nil => rfl
  | cons p pairs ih =>
    simp only [assignValues, List.map_cons, List.foldl_cons]
    exact ih t (setTileValue ts p.1 p.2)

/-- The zip-with-hidden-indices fold of reshuffle_hidden_tiles equals the
single-pass reformulation `assignHidden`. -/
theorem assignValues_hidden_eq_assignHidden (ts : List Tile) :
    ∀ vs : List String, assignValues ts ((hiddenIndices ts).zip vs) = assignHidden ts vs := by
  induction ts with
  | nil => intro vs; rfl
  | cons t ts ih =>
    intro vs
    unfold hiddenIndices
    by_cases h : t.status = TileStatus.Hidden
    · simp only [hiddenIndicesFrom, if_pos h]
      rw [hiddenIndicesFrom_shift ts 1]
      cases vs with
      | nil =>
        simp only [List.zip_nil_right]
        rw [show assignValues (t :: ts) [] = t :: ts from rfl, assignHidden_nil]
      | cons v vs =>
        simp only [List.zip_cons_cons, zip_map_add_one]
        simp only [assignValues, List.foldl_cons]
        rw [show setTileValue (t :: ts) 0 v = { t with value := v } :: ts from rfl]
        rw [show List.foldl (fun ts p => setTileValue ts p.1 p.2) ({ t with value := v } :: ts)
              (((hiddenIndicesFrom 0 ts).zip vs).map (fun p => (p.1 + 1, p.2))) =
            assignValues ({ t with value := v } :: ts)
              (((hiddenIndicesFrom 0 ts).zip vs).map (fun p => (p.1 + 1, p.2))) from rfl]
        rw [assignValues_cons_shift]
        rw [show assignValues ts ((hiddenIndicesFrom 0 ts).zip vs) = assignHidden ts vs from ih vs]
        simp [assignHidden, h]
    · simp only [hiddenIndicesFrom, if_neg h]
      rw [hiddenIndicesFrom_shift ts 1, zip_map_add_one, assignValues_cons_shift]
      rw [show assignValues ts ((hiddenIndicesFrom 0 ts).zip vs) = assignHidden ts vs from ih vs]
      simp [assignHidden, h]

/-- `assignHidden` never changes any tile's status. -/
theorem assignHidden_map_status (ts : List Tile) :
    ∀ vs, (assignHidden ts vs).map (fun t => t.status) = ts.map (fun t => t.status) := by
  induction ts with
  | nil => intro vs; rfl
  | cons t ts ih =>
    intro vs
    by_cases h : t.status = TileStatus.Hidden
    · cases vs with
      | nil => simp [assignHidden, h, ih]
      | cons v vs => simp [assignHidden, h, ih]
    · simp [assignHidden, h, ih]

/-- `assignHidden` leaves every non-Hidden position untouched. -/
theorem assignHidden_getD_of_not_hidden (ts : List Tile) :
    ∀ vs (j : Nat), (ts.getD j defaultTile).status ≠ TileStatus.Hidden →
      (assignHidden ts vs).getD j defaultTile = ts.getD j defaultTile := by
  induction ts with
  | nil => intro vs j _; rfl
  | cons t ts ih =>
    intro vs j h
    by_cases ht : t.status = TileStatus.Hidden
    · cases vs with
      | nil =>
        cases j with
        | zero => simp [assignHidden, ht]
        | succ j => simpa [assignHidden, ht] using ih [] j h
      | cons v vs =>
        cases j with
        | zero => exact absurd ht h
        | succ j => simpa [assignHidden, ht] using ih vs j h
    · cases j with
      | zero => simp [assignHidden, ht]
      | succ j => simpa [assignHidden, ht] using ih vs j h

/-- When the value stream has exactly as many entries as there are Hidden
tiles, the hidden values after `assignHidden` are the stream itself. -/
theorem assignHidden_hiddenValues (ts : List Tile) :
    ∀ vs, vs.length = (ts.filter (fun t => t.status = TileStatus.Hidden)).length →
      hiddenValues (assignHidden ts vs) = vs := by
  induction ts with
  | nil =>
    intro vs h
    cases vs with
    | nil => rfl
    | cons v vs => simp at h
  | cons t ts ih =>
    intro vs h
    by_cases ht : t.status = TileStatus.Hidden
    · cases vs with
      | nil => simp [List.filter_cons, ht] at h
      | cons v vs =>
        simp only [List.filter_cons, ht] at h
        simp only [assignHidden, if_pos ht]
        simp only [hiddenValues, List.filter_cons] at ih ⊢
        simp [ht, ih vs (by simpa using h)]
    · simp only [List.filter_cons, ht] at h
      simp only [assignHidden, if_neg ht]
      simp only [hiddenValues, List.filter_cons] at ih ⊢
      simp [ht, ih vs (by simpa using h)]

/-- C8: reshuffling hidden tiles never changes any tile's status; every tile
whose status is not Hidden is completely unchanged; the multiset of values on
Hidden tiles is preserved; and with fewer than 2 Hidden tiles the whole state
is unchanged. -/
theorem c8_reshuffle_preserves_visibility (shuffle : List String → List String) (s : AppState)
    (hperm : ∀ l : List String, (shuffle l).Perm l) :
    ((reshuffle_hidden_tiles shuffle s).tiles.map (fun t => t.status) =
        s.tiles.map (fun t => t.status))
    ∧ (∀ j : Nat, (s.tiles.getD j defaultTile).status ≠ TileStatus.Hidden →
        (reshuffle_hidden_tiles shuffle s).tiles.getD j defaultTile =
          s.tiles.getD j defaultTile)
    ∧ (hiddenValues (reshuffle_hidden_tiles shuffle s).tiles).Perm (hiddenValues s.tiles)
    ∧ ((s.tiles.filter (fun t => t.status = TileStatus.Hidden)).length < 2 →
        reshuffle_hidden_tiles shuffle s = s) := by
  simp only [reshuffle_hidden_tiles]
  by_cases hlen : (hiddenIndices s.tiles).length < 2
  · rw [if_pos hlen]
    exact ⟨rfl, fun j _ => rfl, List.Perm.refl _, fun _ => rfl⟩
  · rw [if_neg hlen]
    have hvals : (shuffle (hiddenValues s.tiles)).length =
        (s.tiles.filter (fun t => t.status = TileStatus.Hidden)).length := by
      rw [(hperm (hiddenValues s.tiles)).length_eq]
      simp [hiddenValues]
    rw [assignValues_hidden_eq_assignHidden]
    refine ⟨assignHidden_map_status _ _,
      fun j h => assignHidden_getD_of_not_hidden _ _ j h, ?_, ?_⟩
    · rw [show hiddenValues (assignHidden s.tiles (shuffle (hiddenValues s.tiles))) =
          shuffle (hiddenValues s.tiles) from assignHidden_hiddenValues _ _ hvals]
      exact hperm _
    · intro hflt
      exact absurd (by rw [hiddenIndices_length]; exact hflt) hlen

/-- C8 (witness): the theorem instantiated with the identity shuffle at a
concrete five-tile state. -/
theorem c8_reshuffle_preserves_visibility_witness :
    ((reshuffle_hidden_tiles id { freshState .Easy with tiles :=
        [{ value := "x", status := .Hidden }, { value := "y", status := .Matched },
         { value := "z", status := .Hidden }] }).tiles.map (fun t => t.status) =
      ({ freshState .Easy with tiles :=
        [{ value := "x", status := .Hidden }, { value := "y", status := .Matched },
         { value := "z", status := .Hidden }] } : AppState).tiles.map (fun t => t.status))
    ∧ (hiddenValues (reshuffle_hidden_tiles id { freshState .Easy with tiles :=
        [{ value := "x", status := .Hidden }, { value := "y", status := .Matched },
         { value := "z", status := .Hidden }] }).tiles).Perm
      (hiddenValues ({ freshState .Easy with tiles :=
        [{ value := "x", status := .Hidden }, { value := "y", status := .Matched },
         { value := "z", status := .Hidden }] } : AppState).tiles) :=
  ⟨(c8_reshuffle_preserves_visibility id _ (fun l => List.Perm.refl l)).1,
   (c8_reshuffle_preserves_visibility id _ (fun l => List.Perm.refl l)).2.2.1⟩

/-- The group-building loop produces `group_count * match_size` values. -/
theorem group_values_length (pool : List String) (k : Nat) :
    ∀ n, (group_values pool k n).length = n * k := by
  intro n
  induction n with
  | zero => simp [group_values]
  | succ n ih => simp [group_values, ih, Nat.succ_mul]

/-- Filtering a replicated list counts all copies or none. -/
theorem filter_replicate_length {α : Type} (p : α → Bool) (k : Nat) (a : α) :
    ((List.replicate k a).filter p).length = if p a then k else 0 := by
  induction k with
  | zero => simp
  | succ k ih =>
    by_cases h : p a <;> simp [List.replicate_succ, List.filter_cons, h, ih]

/-- Every value occurs in the group-building loop's output a multiple of
`match_size` times. -/
theorem group_values_filter_dvd (pool : List String) (k : Nat) (v : String) :
    ∀ n, k ∣ ((group_values pool k n).filter (fun x => x = v)).length := by
  intro n
  induction n with
  | zero => simp [group_values]
  | succ n ih =>
    simp only [group_values, List.filter_append, List.length_append]
    refine Nat.dvd_add ih ?_
    rw [filter_replicate_length]
    split_ifs
    · exact Nat.dvd_refl k
    · exact Nat.dvd_zero k

/-- C4: board generation produces exactly `cols * rows` tiles; every non-empty
value occurs a multiple of `match_size` times; there are at most
`match_size - 1` filler tiles (empty value, status Matched); and every tile is
either Hidden or a filler. -/
theorem c4_board_generation (sp sv : List String → List String) (pool : List String)
    (s : AppState) (hsp : ∀ l, (sp l).Perm l) (hsv : ∀ l, (sv l).Perm l)
    (hpool : pool ≠ []) (hk : 0 < s.match_size)
    (hge : s.match_size ≤ s.grid_cols * s.grid_rows) :
    (reset_game sp sv pool s).tiles.length = s.grid_cols * s.grid_rows
    ∧ (∀ v : String, v ≠ "" →
        ((reset_game sp sv pool s).tiles.filter (fun t => t.value = v)).length %
          s.match_size = 0)
    ∧ ((reset_game sp sv pool s).tiles.filter
        (fun t => t.value = "" ∧ t.status = TileStatus.Matched)).length ≤ s.match_size - 1
    ∧ (∀ t ∈ (reset_game sp sv pool s).tiles,
        t.status = TileStatus.Hidden ∨ (t.value = "" ∧ t.status = TileStatus.Matched)) := by
  have htiles : (reset_game sp sv pool s).tiles =
      (sv (group_values (sp pool) s.match_size
          ((s.grid_cols * s.grid_rows) / s.match_size))).map
        (fun v => { value := v, status := TileStatus.Hidden }) ++
      List.replicate ((s.grid_cols * s.grid_rows) % s.match_size)
        { value := "", status := TileStatus.Matched } := by
    simp only [reset_game]
    split_ifs <;> rfl
  refine ⟨?_, ?_, ?_, ?_⟩
  · rw [htiles, List.length_append, List.length_map, (hsv _).length_eq, group_values_length,
      List.length_replicate, Nat.mul_comm]
    exact Nat.div_add_mod _ _
  · intro v hv
    rw [htiles, List.filter_append, List.length_append]
    have hfiller : ((List.replicate ((s.grid_cols * s.grid_rows) % s.match_size)
        ({ value := "", status := TileStatus.Matched } : Tile)).filter
          (fun t => t.value = v)).length = 0 := by
      rw [filter_replicate_length]
      simp [Ne.symm hv]
    rw [hfiller, Nat.add_zero, List.filter_map, List.length_map]
    have hcomp : ((fun t : Tile => decide (t.value = v)) ∘
        fun v : String => ({ value := v, status := TileStatus.Hidden } : Tile)) =
        fun x : String => decide (x = v) := rfl
    rw [hcomp, ((hsv _).filter _).length_eq]
    obtain ⟨c, hc⟩ := group_values_filter_dvd (sp pool) s.match_size v
      ((s.grid_cols * s.grid_rows) / s.match_size)
    rw [hc, Nat.mul_mod_right]
  · rw [htiles, List.filter_append, List.length_append]
    have hmap : (((sv (group_values (sp pool) s.match_size
        ((s.grid_cols * s.grid_rows) / s.match_size))).map
          (fun v => { value := v, status := TileStatus.Hidden : Tile })).filter
            (fun t => t.value = "" ∧ t.status = TileStatus.Matched)).length = 0 := by
      rw [List.filter_map, List.length_map]
      have hfalse : ((fun t : Tile => decide (t.value = "" ∧ t.status = TileStatus.Matched)) ∘
          fun v : String => ({ value := v, status := TileStatus.Hidden } : Tile)) =
          fun _ : String => false := by
        funext x
        simp
      rw [hfalse, List.filter_false]
      rfl
    rw [hmap, Nat.zero_add, filter_replicate_length]
    have hlt : (s.grid_cols * s.grid_rows) % s.match_size < s.match_size :=
      Nat.mod_lt _ hk
    split_ifs <;> omega
  · intro t ht
    rw [htiles] at ht
    rcases List.mem_append.1 ht with hmem | hmem
    · obtain ⟨x, _, rfl⟩ := List.mem_map.1 hmem
      exact Or.inl rfl
    · rw [List.eq_of_mem_replicate hmem]
      exact Or.inr ⟨rfl, rfl⟩

/-- C4 (witness): the theorem instantiated with identity shuffles, a one-symbol
pool and a 3×3 grid with match groups of 2. -/
theorem c4_board_generation_witness :
    (reset_game id id ["a"]
        { freshState .Easy with grid_cols := 3, grid_rows := 3, match_size := 2 }).tiles.length =
      3 * 3
    ∧ ((reset_game id id ["a"]
        { freshState .Easy with grid_cols := 3, grid_rows := 3, match_size := 2 }).tiles.filter
          (fun t => t.value = "" ∧ t.status = TileStatus.Matched)).length ≤ 2 - 1 :=
  ⟨(c4_board_generation id id ["a"] _ (fun l => List.Perm.refl l) (fun l => List.Perm.refl l)
      (by decide) (by decide) (by decide)).1,
   (c4_board_generation id id ["a"] _ (fun l => List.Perm.refl l) (fun l => List.Perm.refl l)
      (by decide) (by decide) (by decide)).2.2.1⟩

/-- Unescaping inverts escaping for every value string. -/
theorem unescape_escape (l : List Char) : unescape_value (escape_value l) = l := by
  induction l with
  | nil => rfl
  | cons c rest ih =>
    by_cases h1 : c = '\\'
    · subst h1
      rw [show escape_value ('\\' :: rest) = '\\' :: '\\' :: escape_value rest from rfl]
      rw [show unescape_value ('\\' :: '\\' :: escape_value rest) =
          '\\' :: unescape_value (escape_value rest) from rfl]
      rw [ih]
    · by_cases h2 : c = '\n'
      · subst h2
        rw [show escape_value ('\n' :: rest) = '\\' :: 'n' :: escape_value rest from rfl]
        rw [show unescape_value ('\\' :: 'n' :: escape_value rest) =
            '\n' :: unescape_value (escape_value rest) from rfl]
        rw [ih]
      · by_cases h3 : c = '|'
        · subst h3
          rw [show escape_value ('|' :: rest) = '\\' :: '|' :: escape_value rest from rfl]
          rw [show unescape_value ('\\' :: '|' :: escape_value rest) =
              '|' :: unescape_value (escape_value rest) from rfl]
          rw [ih]
        · simp only [escape_value, if_neg h1, if_neg h2, if_neg h3, List.cons_append,
            List.nil_append]
          rw [unescape_value.eq_def]
          dsimp only
          rw [if_neg h1, ih]

/-- Decoding inverts encoding for every tile. -/
theorem parse_tile_encode (t : Tile) : parse_tile (encode_tile t) = some t := by
  obtain ⟨v, st⟩ := t
  obtain ⟨data⟩ := v
  have hsplit : ∀ c : Char, c ≠ '\\' → c ≠ '|' →
      split_escaped_pair (c :: '|' :: escape_value data) = some ([c], escape_value data) := by
    intro c hc1 hc2
    rw [split_escaped_pair.eq_def]
    dsimp only
    rw [if_neg hc1, if_neg hc2, split_escaped_pair.eq_def]
    dsimp only
    rw [if_neg (by decide), if_pos rfl]
    rfl
  cases st with
  | Hidden =>
    simp [parse_tile, encode_tile, hsplit 'H' (by decide) (by decide), unescape_escape]
  | Flipped =>
    simp [parse_tile, encode_tile, hsplit 'F' (by decide) (by decide), unescape_escape]
  | Matched =>
    simp [parse_tile, encode_tile, hsplit 'M' (by decide) (by decide), unescape_escape]

/-- Decoding a rendered decimal digit gives the digit back. -/
theorem charDigit_digitChar (d : Nat) (h : d < 10) : charDigit (Nat.digitChar d) = d := by
  interval_cases d <;> decide

/-- Rendered decimal digits are digit characters. -/
theorem isDigit_digitChar (d : Nat) (h : d < 10) : (Nat.digitChar d).isDigit = true := by
  interval_cases d <;> decide

/-- Appending one digit multiplies the accumulated value by ten. -/
theorem digitsVal_append (l : List Char) (c : Char) :
    digitsVal (l ++ [c]) = digitsVal l * 10 + charDigit c := by
  simp [digitsVal, List.foldl_append]

/-- The big-endian character value of a little-endian digit list. -/
theorem digitsVal_rev_map (ds : List Nat) (h : ∀ d ∈ ds, d < 10) :
    digitsVal ((ds.map Nat.digitChar).reverse) = Nat.ofDigits 10 ds := by
  induction ds with
  | nil => rfl
  | cons d ds ih =>
    simp only [List.map_cons, List.reverse_cons, digitsVal_append]
    rw [ih (fun x hx => h x (List.mem_cons_of_mem _ hx)),
      charDigit_digitChar d (h d (List.mem_cons_self _ _)), Nat.ofDigits_cons]
    omega

/-- The decimal rendering is non-empty, all digits, and evaluates back to the
rendered number. -/
theorem natChars_spec (n : Nat) :
    natChars n ≠ [] ∧ (∀ c ∈ natChars n, c.isDigit = true) ∧ digitsVal (natChars n) = n := by
  by_cases h : n = 0
  · subst h
    exact ⟨by decide, by decide, by decide⟩
  · unfold natChars
    rw [if_neg h]
    refine ⟨?_, ?_, ?_⟩
    · intro hc
      have hnil : Nat.digits 10 n = [] := by simpa using hc
      exact h (Nat.digits_eq_nil_iff_eq_zero.1 hnil)
    · intro c hc
      rw [List.mem_reverse] at hc
      obtain ⟨d, hd, rfl⟩ := List.mem_map.1 hc
      exact isDigit_digitChar d (Nat.digits_lt_base (by norm_num) hd)
    · rw [digitsVal_rev_map _ (fun d hd => Nat.digits_lt_base (by norm_num) hd),
        Nat.ofDigits_digits]

/-- The rendering never starts with a sign. -/
theorem natChars_head_ne_plus (n : Nat) : (natChars n).head? ≠ some '+' := by
  obtain ⟨hne, hdig, _⟩ := natChars_spec n
  cases hl : natChars n with
  | nil => simp
  | cons c rest =>
    simp only [List.head?, ne_eq, Option.some.injEq]
    intro hc
    have hmem : c ∈ natChars n := by
      rw [hl]
      exact List.mem_cons_self _ _
    have hd := hdig c hmem
    rw [hc] at hd
    exact absurd hd (by decide)

/-- Parsing the decimal rendering of a number recovers it. -/
theorem parseNatChars_natChars (n : Nat) : parseNatChars (natChars n) = some n := by
  obtain ⟨hne, hdig, hval⟩ := natChars_spec n
  unfold parseNatChars
  rw [if_neg (natChars_head_ne_plus n),
    if_pos ⟨hne, List.all_eq_true.2 (fun c hc => hdig c hc)⟩, hval]

/-- Rust `u8` parsing recovers every in-range rendered number. -/
theorem parseU8_natChars (n : Nat) (h : n ≤ 255) : parseU8 (natChars n) = some n := by
  simp [parseU8, parseNatChars_natChars, h]

/-- Rust `u32` parsing recovers every in-range rendered number. -/
theorem parseU32_natChars (n : Nat) (h : n ≤ 4294967295) : parseU32 (natChars n) = some n := by
  simp [parseU32, parseNatChars_natChars, h]

/-- Rust `usize` parsing recovers every in-range rendered number. -/
theorem parseUsize_natChars (n : Nat) (h : n ≤ 18446744073709551615) :
    parseUsize (natChars n) = some n := by
  simp [parseUsize, parseNatChars_natChars, h]

/-- Digit characters are not whitespace. -/
theorem digit_not_ws (c : Char) (h : c.isDigit = true) : c.isWhitespace = false := by
  by_contra hw
  rw [Bool.not_eq_false] at hw
  simp only [Char.isWhitespace, Bool.or_eq_true, decide_eq_true_eq] at hw
  obtain (((h1 | h1) | h1) | h1) := hw <;> subst h1 <;> exact absurd h (by decide)

/-- `dropWhile` keeps a list with no whitespace intact. -/
theorem dropWhile_not_ws (l : List Char) (h : ∀ c ∈ l, c.isWhitespace = false) :
    l.dropWhile Char.isWhitespace = l := by
  cases l with
  | nil => rfl
  | cons c rest => simp [List.dropWhile_cons, h c (List.mem_cons_self c rest)]

/-- Trimming a string with no whitespace is the identity. -/
theorem trimChars_eq_self (l : List Char) (h : ∀ c ∈ l, c.isWhitespace = false) :
    trimChars l = l := by
  unfold trimChars
  rw [dropWhile_not_ws l h,
    dropWhile_not_ws _ (fun c hc => h c (List.mem_reverse.1 hc)), List.reverse_reverse]

/-- The decimal rendering contains no whitespace. -/
theorem natChars_no_ws (n : Nat) : ∀ c ∈ natChars n, c.isWhitespace = false :=
  fun c hc => digit_not_ws c ((natChars_spec n).2.1 c hc)

/-- The decimal rendering is never the dash placeholder. -/
theorem natChars_ne_dash (n : Nat) : natChars n ≠ ['-'] := by
  intro hc
  have hd := (natChars_spec n).2.1 '-' (by rw [hc]; exact List.mem_cons_self _ _)
  exact absurd hd (by decide)

/-- Every character of a comma-join is a comma or comes from one part. -/
theorem mem_joinComma (c : Char) :
    ∀ parts : List (List Char), c ∈ joinComma parts → c = ',' ∨ ∃ p ∈ parts, c ∈ p := by
  intro parts
  induction parts with
  | nil => intro hc; simp [joinComma] at hc
  | cons x xs ih =>
    intro hc
    cases xs with
    | nil =>
      right
      exact ⟨x, List.mem_cons_self _ _, by simpa [joinComma] using hc⟩
    | cons y ys =>
      simp only [joinComma, List.mem_append, List.mem_cons] at hc
      rcases hc with hx | hc | hc
      · exact Or.inr ⟨x, List.mem_cons_self _ _, hx⟩
      · exact Or.inl hc
      · rcases ih hc with h | ⟨p, hp, hcp⟩
        · exact Or.inl h
        · exact Or.inr ⟨p, List.mem_cons_of_mem _ hp, hcp⟩

/-- Splitting a comma-free string yields the single part. -/
theorem splitComma_no_comma (x : List Char) (h : ',' ∉ x) : splitComma x = [x] := by
  induction x with
  | nil => rfl
  | cons c rest ih =>
    have hc : c ≠ ',' := fun hc => h (hc ▸ List.mem_cons_self _ _)
    rw [splitComma.eq_def]
    dsimp only
    rw [if_neg (fun he => hc he), ih (fun hm => h (List.mem_cons_of_mem _ hm))]

/-- Splitting after a comma-free part peels that part off. -/
theorem splitComma_append (x r : List Char) (h : ',' ∉ x) :
    splitComma (x ++ ',' :: r) = x :: splitComma r := by
  induction x with
  | nil =>
    rw [List.nil_append, splitComma.eq_def]
    dsimp only
    rw [if_pos rfl]
  | cons c rest ih =>
    have hc : c ≠ ',' := fun hc => h (hc ▸ List.mem_cons_self _ _)
    rw [List.cons_append, splitComma.eq_def]
    dsimp only
    rw [if_neg (fun he => hc he), ih (fun hm => h (List.mem_cons_of_mem _ hm))]

/-- Splitting inverts joining for non-empty lists of comma-free parts. -/
theorem splitComma_joinComma :
    ∀ parts : List (List Char), parts ≠ [] → (∀ p ∈ parts, ',' ∉ p) →
      splitComma (joinComma parts) = parts := by
  intro parts
  induction parts with
  | nil => intro h; exact absurd rfl h
  | cons x xs ih =>
    intro _ h
    cases xs with
    | nil => exact splitComma_no_comma x (h x (List.mem_cons_self _ _))
    | cons y ys =>
      rw [show joinComma (x :: y :: ys) = x ++ ',' :: joinComma (y :: ys) from rfl]
      rw [splitComma_append _ _ (h x (List.mem_cons_self _ _))]
      rw [ih (by simp) (fun p hp => h p (List.mem_cons_of_mem _ hp))]

/-- `mapM` over rendered indices recovers the indices. -/
theorem mapM_parseUsize_natChars :
    ∀ l : List Nat, (∀ x ∈ l, x ≤ 18446744073709551615) →
      (l.map natChars).mapM parseUsize = some l := by
  intro l
  induction l with
  | nil => intro _; rfl
  | cons x xs ih =>
    intro h
    rw [List.map_cons, List.mapM_cons, parseUsize_natChars x (h x (List.mem_cons_self _ _)),
      ih (fun y hy => h y (List.mem_cons_of_mem _ hy))]
    rfl

/-- Trimming rendered indices is the identity. -/
theorem map_trim_natChars :
    ∀ l : List Nat, (l.map natChars).map trimChars = l.map natChars := by
  intro l
  induction l with
  | nil => rfl
  | cons x xs ih =>
    simp only [List.map_cons, ih, List.cons.injEq, and_true]
    exact trimChars_eq_self _ (natChars_no_ws x)

/-- Rendered indices are all non-empty, so the parser's empty-part filter keeps
them all. -/
theorem filter_ne_nil_natChars :
    ∀ l : List Nat, (l.map natChars).filter (fun part => part ≠ []) = l.map natChars := by
  intro l
  induction l with
  | nil => rfl
  | cons x xs ih =>
    simp only [List.map_cons, List.filter_cons]
    rw [if_pos (by simpa using (natChars_spec x).1), ih]

/-- One parse-loop step on a line already handled by an earlier key is just the
recursion on the rest. -/
theorem parse_lines_cons (acc acc' : ParseAcc) (line : List Char) (rest : List (List Char))
    (h : parse_line acc line = some acc') :
    parse_lines acc (line :: rest) = parse_lines acc' rest := by
  simp [parse_lines, h]

/-- Parse-loop step for the version line of the current save format. -/
theorem parse_line_version (acc : ParseAcc) :
    parse_line acc (kvLine "version" (natChars 1)) = some { acc with version := some 1 } := by
  have hstep : parse_line acc (kvLine "version" (natChars 1)) =
      some { acc with version := parseU8 (natChars 1) } := rfl
  rw [hstep, parseU8_natChars 1 (by norm_num)]

/-- Parse-loop step for a version line carrying an arbitrary rendered number. -/
theorem parse_line_version_any (acc : ParseAcc) (v : Nat) :
    parse_line acc (kvLine "version" (natChars v)) =
      some { acc with version := parseU8 (natChars v) } := rfl

/-- A rendered version other than 1 never parses to the current version: in
range it parses to itself (≠ 1), out of `u8` range the parse fails to none. -/
theorem parseU8_natChars_ne_one (v : Nat) (hv : v ≠ 1) : parseU8 (natChars v) ≠ some 1 := by
  by_cases h : v ≤ 255
  · rw [parseU8_natChars v h]
    simp [hv]
  · have hnone : parseU8 (natChars v) = none := by
      unfold parseU8
      rw [parseNatChars_natChars]
      simp [h]
    rw [hnone]
    simp

/-- Parse-loop step for the started flag. -/
theorem parse_line_started (acc : ParseAcc) :
    parse_line acc (kvLine "started" ['1']) = some { acc with started := true } := rfl

/-- Parse-loop step for the difficulty code. -/
theorem parse_line_difficulty (acc : ParseAcc) (d : Difficulty) :
    parse_line acc (kvLine "difficulty" (difficulty_to_code d)) =
      some { acc with difficulty := some d } := by
  cases d <;> rfl

/-- Parse-loop step for the tri level. -/
theorem parse_line_tri_level (acc : ParseAcc) (n : Nat) (h : n ≤ 255) :
    parse_line acc (kvLine "tri_level" (natChars n)) =
      some { acc with tri_level := clampNat n 1 4 } := by
  have hstep : parse_line acc (kvLine "tri_level" (natChars n)) =
      (parseU8 (natChars n)).map (fun m => { acc with tri_level := clampNat m 1 4 }) := rfl
  rw [hstep, parseU8_natChars n h]
  rfl

/-- Parse-loop step for the recall level. -/
theorem parse_line_recall_level (acc : ParseAcc) (n : Nat) (h : n ≤ 255) :
    parse_line acc (kvLine "recall_level" (natChars n)) =
      some { acc with recall_level := clampNat n 1 4 } := by
  have hstep : parse_line acc (kvLine "recall_level" (natChars n)) =
      (parseU8 (natChars n)).map (fun m => { acc with recall_level := clampNat m 1 4 }) := rfl
  rw [hstep, parseU8_natChars n h]
  rfl

/-- Parse-loop step for the infinite round. -/
theorem parse_line_infinite_round (acc : ParseAcc) (n : Nat) (h : n ≤ 4294967295) :
    parse_line acc (kvLine "infinite_round" (natChars n)) =
      some { acc with infinite_round := max n 1 } := by
  have hstep : parse_line acc (kvLine "infinite_round" (natChars n)) =
      (parseU32 (natChars n)).map (fun m => { acc with infinite_round := max m 1 }) := rfl
  rw [hstep, parseU32_natChars n h]
  rfl

/-- Parse-loop step for the elapsed seconds. -/
theorem parse_line_seconds (acc : ParseAcc) (n : Nat) (h : n ≤ 4294967295) :
    parse_line acc (kvLine "seconds_elapsed" (natChars n)) =
      some { acc with seconds_elapsed := n } := by
  have hstep : parse_line acc (kvLine "seconds_elapsed" (natChars n)) =
      (parseU32 (natChars n)).map (fun m => { acc with seconds_elapsed := m }) := rfl
  rw [hstep, parseU32_natChars n h]
  rfl

/-- Parse-loop step for the run mismatch counter. -/
theorem parse_line_run_mismatches (acc : ParseAcc) (n : Nat) (h : n ≤ 4294967295) :
    parse_line acc (kvLine "run_mismatches" (natChars n)) =
      some { acc with run_mismatches := n } := by
  have hstep : parse_line acc (kvLine "run_mismatches" (natChars n)) =
      (parseU32 (natChars n)).map (fun m => { acc with run_mismatches := m }) := rfl
  rw [hstep, parseU32_natChars n h]
  rfl

/-- Parse-loop step for the run match counter. -/
theorem parse_line_run_matches (acc : ParseAcc) (n : Nat) (h : n ≤ 4294967295) :
    parse_line acc (kvLine "run_matches" (natChars n)) =
      some { acc with run_matches := n } := by
  have hstep : parse_line acc (kvLine "run_matches" (natChars n)) =
      (parseU32 (natChars n)).map (fun m => { acc with run_matches := m }) := rfl
  rw [hstep, parseU32_natChars n h]
  rfl

/-- Parse-loop step for the mismatch-pressure counter. -/
theorem parse_line_imc (acc : ParseAcc) (n : Nat) (h : n ≤ 255) :
    parse_line acc (kvLine "impossible_mismatch_count" (natChars n)) =
      some { acc with impossible_mismatch_count := n } := by
  have hstep : parse_line acc (kvLine "impossible_mismatch_count" (natChars n)) =
      (parseU8 (natChars n)).map (fun m => { acc with impossible_mismatch_count := m }) := rfl
  rw [hstep, parseU8_natChars n h]
  rfl

/-- Parse-loop step for the punish stage. -/
theorem parse_line_ips (acc : ParseAcc) (n : Nat) (h : n ≤ 255) :
    parse_line acc (kvLine "impossible_punish_stage" (natChars n)) =
      some { acc with impossible_punish_stage := n } := by
  have hstep : parse_line acc (kvLine "impossible_punish_stage" (natChars n)) =
      (parseU8 (natChars n)).map (fun m => { acc with impossible_punish_stage := m }) := rfl
  rw [hstep, parseU8_natChars n h]
  rfl

/-- Parse-loop step for an absent last-first-pick index. -/
theorem parse_line_last_first_none (acc : ParseAcc) :
    parse_line acc (kvLine "impossible_last_first_index" ['-']) =
      some { acc with impossible_last_first_index := none } := rfl

/-- Parse-loop step for a recorded last-first-pick index. -/
theorem parse_line_last_first_some (acc : ParseAcc) (n : Nat)
    (h : n ≤ 18446744073709551615) :
    parse_line acc (kvLine "impossible_last_first_index" (natChars n)) =
      some { acc with impossible_last_first_index := some n } := by
  have hstep : parse_line acc (kvLine "impossible_last_first_index" (natChars n)) =
      (if trimChars (natChars n) = ['-'] then
        some { acc with impossible_last_first_index := none }
      else (parseUsize (natChars n)).map
        fun v => { acc with impossible_last_first_index := some v }) := rfl
  rw [hstep, trimChars_eq_self _ (natChars_no_ws n), if_neg (natChars_ne_dash n),
    parseUsize_natChars n h]
  rfl

/-- Parse-loop step for the same-first-pick streak. -/
theorem parse_line_isfs (acc : ParseAcc) (n : Nat) (h : n ≤ 255) :
    parse_line acc (kvLine "impossible_same_first_streak" (natChars n)) =
      some { acc with impossible_same_first_streak := n } := by
  have hstep : parse_line acc (kvLine "impossible_same_first_streak" (natChars n)) =
      (parseU8 (natChars n)).map (fun m => { acc with impossible_same_first_streak := m }) := rfl
  rw [hstep, parseU8_natChars n h]
  rfl

/-- Parse-loop step for the flipped-index list. -/
theorem parse_line_flipped (acc : ParseAcc) (l : List Nat)
    (h : ∀ x ∈ l, x ≤ 18446744073709551615) :
    parse_line acc (kvLine "flipped_indices" (joinComma (l.map natChars))) =
      some { acc with flipped_indices := l } := by
  cases l with
  | nil => rfl
  | cons x xs =>
    have hnws : ∀ c ∈ joinComma ((x :: xs).map natChars), c.isWhitespace = false := by
      intro c hc
      rcases mem_joinComma c _ hc with rfl | ⟨p, hp, hcp⟩
      · decide
      · obtain ⟨y, _, rfl⟩ := List.mem_map.1 hp
        exact natChars_no_ws y c hcp
    have hne : joinComma ((x :: xs).map natChars) ≠ [] := by
      cases xs with
      | nil => simpa [joinComma] using (natChars_spec x).1
      | cons y ys =>
        simp only [List.map_cons, joinComma, ne_eq, List.append_eq_nil, not_and]
        intro hx
        exact absurd hx (natChars_spec x).1
    have hnc : ∀ p ∈ (x :: xs).map natChars, ',' ∉ p := by
      intro p hp hcp
      obtain ⟨y, _, rfl⟩ := List.mem_map.1 hp
      have hd := (natChars_spec y).2.1 ',' hcp
      exact absurd hd (by decide)
    have hstep : parse_line acc (kvLine "flipped_indices" (joinComma ((x :: xs).map natChars))) =
        (if trimChars (joinComma ((x :: xs).map natChars)) = [] then
          some { acc with flipped_indices := [] }
        else ((((splitComma (trimChars (joinComma ((x :: xs).map natChars)))).map
              trimChars).filter (fun part => part ≠ [])).mapM parseUsize).map
          fun idxs => { acc with flipped_indices := idxs }) := rfl
    rw [hstep, trimChars_eq_self _ hnws, if_neg hne,
      splitComma_joinComma _ (by simp) hnc, map_trim_natChars, filter_ne_nil_natChars,
      mapM_parseUsize_natChars _ h]
    rfl

/-- Parse-loop step for one tile line. -/
theorem parse_line_tile (acc : ParseAcc) (t : Tile) :
    parse_line acc (kvLine "tile" (encode_tile t)) =
      some { acc with tiles := acc.tiles ++ [t] } := by
  have hstep : parse_line acc (kvLine "tile" (encode_tile t)) =
      (parse_tile (encode_tile t)).map
        (fun t2 => { acc with tiles := acc.tiles ++ [t2] }) := rfl
  rw [hstep, parse_tile_encode]
  rfl

/-- The parse loop over the serialized tile lines appends exactly those tiles. -/
theorem parse_lines_tiles :
    ∀ (ts : List Tile) (acc : ParseAcc),
      parse_lines acc (ts.map (fun t => kvLine "tile" (encode_tile t))) =
        some { acc with tiles := acc.tiles ++ ts } := by
  intro ts
  induction ts with
  | nil => intro acc; simp [parse_lines]
  | cons t ts ih =>
    intro acc
    rw [List.map_cons, parse_lines_cons _ _ _ _ (parse_line_tile acc t), ih]
    simp

/-- C5: serializing an in-progress run and parsing it back reproduces the
identical tile vector (values and statuses), flipped-index list and all
counters, for every run whose fields are in the ranges the program maintains
(`u8`/`u32`/`usize` fields in range, levels in 1–4, infinite round ≥ 1); and
parsing a save whose version field holds any number differing from the current
version (1) returns none. -/
theorem c5_round_trip_persistence (run : SavedRun)
    (h1 : 1 ≤ run.tri_level) (h2 : run.tri_level ≤ 4)
    (h3 : 1 ≤ run.recall_level) (h4 : run.recall_level ≤ 4)
    (h5 : 1 ≤ run.infinite_round) (h6 : run.infinite_round ≤ 4294967295)
    (h7 : run.seconds_elapsed ≤ 4294967295)
    (h8 : run.run_mismatches ≤ 4294967295)
    (h9 : run.run_matches ≤ 4294967295)
    (h10 : run.impossible_mismatch_count ≤ 255)
    (h11 : run.impossible_punish_stage ≤ 255)
    (h12 : ∀ v ∈ run.impossible_last_first_index, v ≤ 18446744073709551615)
    (h13 : run.impossible_same_first_streak ≤ 255)
    (h14 : ∀ x ∈ run.flipped_indices, x ≤ 18446744073709551615) :
    parse_saved_run (serialize_saved_run run) = some run
    ∧ ∀ v : Nat, v ≠ 1 → parse_saved_run
        (kvLine "version" (natChars v) :: (serialize_saved_run run).drop 1) = none := by
  obtain ⟨d, tl, rl, ir, se, rm, rma, imc, ips, ilfi, isfs, fi, ts⟩ := run
  dsimp only at h1 h2 h3 h4 h5 h6 h7 h8 h9 h10 h11 h12 h13 h14
  constructor
  · simp only [serialize_saved_run, parse_saved_run, List.cons_append, List.nil_append]
    rw [parse_lines_cons _ _ _ _ (parse_line_version _),
      parse_lines_cons _ _ _ _ (parse_line_started _),
      parse_lines_cons _ _ _ _ (parse_line_difficulty _ d),
      parse_lines_cons _ _ _ _ (parse_line_tri_level _ tl (by omega)),
      parse_lines_cons _ _ _ _ (parse_line_recall_level _ rl (by omega)),
      parse_lines_cons _ _ _ _ (parse_line_infinite_round _ ir (by omega)),
      parse_lines_cons _ _ _ _ (parse_line_seconds _ se h7),
      parse_lines_cons _ _ _ _ (parse_line_run_mismatches _ rm h8),
      parse_lines_cons _ _ _ _ (parse_line_run_matches _ rma h9),
      parse_lines_cons _ _ _ _ (parse_line_imc _ imc h10),
      parse_lines_cons _ _ _ _ (parse_line_ips _ ips h11)]
    cases ilfi with
    | none =>
      rw [parse_lines_cons _ _ _ _ (parse_line_last_first_none _),
        parse_lines_cons _ _ _ _ (parse_line_isfs _ isfs h13),
        parse_lines_cons _ _ _ _ (parse_line_flipped _ fi h14),
        parse_lines_tiles ts _]
      dsimp only
      rw [if_neg (by simp)]
      simp [clampNat]
      omega
    | some v =>
      rw [parse_lines_cons _ _ _ _ (parse_line_last_first_some _ v (h12 v rfl)),
        parse_lines_cons _ _ _ _ (parse_line_isfs _ isfs h13),
        parse_lines_cons _ _ _ _ (parse_line_flipped _ fi h14),
        parse_lines_tiles ts _]
      dsimp only
      rw [if_neg (by simp)]
      simp [clampNat]
      omega
  · intro ver hv
    simp only [serialize_saved_run, parse_saved_run, List.cons_append, List.nil_append,
      List.drop_succ_cons, List.drop_zero]
    rw [parse_lines_cons _ _ _ _ (parse_line_version_any _ ver),
      parse_lines_cons _ _ _ _ (parse_line_started _),
      parse_lines_cons _ _ _ _ (parse_line_difficulty _ d),
      parse_lines_cons _ _ _ _ (parse_line_tri_level _ tl (by omega)),
      parse_lines_cons _ _ _ _ (parse_line_recall_level _ rl (by omega)),
      parse_lines_cons _ _ _ _ (parse_line_infinite_round _ ir (by omega)),
      parse_lines_cons _ _ _ _ (parse_line_seconds _ se h7),
      parse_lines_cons _ _ _ _ (parse_line_run_mismatches _ rm h8),
      parse_lines_cons _ _ _ _ (parse_line_run_matches _ rma h9),
      parse_lines_cons _ _ _ _ (parse_line_imc _ imc h10),
      parse_lines_cons _ _ _ _ (parse_line_ips _ ips h11)]
    cases ilfi with
    | none =>
      rw [parse_lines_cons _ _ _ _ (parse_line_last_first_none _),
        parse_lines_cons _ _ _ _ (parse_line_isfs _ isfs h13),
        parse_lines_cons _ _ _ _ (parse_line_flipped _ fi h14),
        parse_lines_tiles ts _]
      dsimp only
      rw [if_pos (Or.inl (parseU8_natChars_ne_one ver hv))]
    | some v =>
      rw [parse_lines_cons _ _ _ _ (parse_line_last_first_some _ v (h12 v rfl)),
        parse_lines_cons _ _ _ _ (parse_line_isfs _ isfs h13),
        parse_lines_cons _ _ _ _ (parse_line_flipped _ fi h14),
        parse_lines_tiles ts _]
      dsimp only
      rw [if_pos (Or.inl (parseU8_natChars_ne_one ver hv))]

/-- C5 (witness): the theorem instantiated at a concrete three-tile Infinite
run with escapable characters in the tile values. -/
theorem c5_round_trip_persistence_witness :
    parse_saved_run (serialize_saved_run
      { difficulty := .RecallMode, tri_level := 3, recall_level := 2, infinite_round := 4,
        seconds_elapsed := 77, run_mismatches := 5, run_matches := 9,
        impossible_mismatch_count := 2, impossible_punish_stage := 1,
        impossible_last_first_index := some 7, impossible_same_first_streak := 1,
        flipped_indices := [0, 5],
        tiles := [{ value := "a|b", status := .Hidden }, { value := "c\\d", status := .Flipped },
                  { value := "", status := .Matched }] }) =
      some
      { difficulty := .RecallMode, tri_level := 3, recall_level := 2, infinite_round := 4,
        seconds_elapsed := 77, run_mismatches := 5, run_matches := 9,
        impossible_mismatch_count := 2, impossible_punish_stage := 1,
        impossible_last_first_index := some 7, impossible_same_first_streak := 1,
        flipped_indices := [0, 5],
        tiles := [{ value := "a|b", status := .Hidden }, { value := "c\\d", status := .Flipped },
                  { value := "", status := .Matched }] }
    ∧ parse_saved_run (kvLine "version" (natChars 2) :: (serialize_saved_run
      { difficulty := .RecallMode, tri_level := 3, recall_level := 2, infinite_round := 4,
        seconds_elapsed := 77, run_mismatches := 5, run_matches := 9,
        impossible_mismatch_count := 2, impossible_punish_stage := 1,
        impossible_last_first_index := some 7, impossible_same_first_streak := 1,
        flipped_indices := [0, 5],
        tiles := [{ value := "a|b", status := .Hidden }, { value := "c\\d", status := .Flipped },
                  { value := "", status := .Matched }] }).drop 1) = none :=
  ⟨(c5_round_trip_persistence _ (by norm_num) (by norm_num) (by norm_num) (by norm_num)
    (by norm_num) (by norm_num) (by norm_num) (by norm_num) (by norm_num) (by norm_num)
    (by norm_num)
    (by intro v hv; simp [Option.mem_def] at hv; omega)
    (by norm_num)
    (by intro x hx; simp at hx; omega)).1,
   (c5_round_trip_persistence _ (by norm_num) (by norm_num) (by norm_num) (by norm_num)
    (by norm_num) (by norm_num) (by norm_num) (by norm_num) (by norm_num) (by norm_num)
    (by norm_num)
    (by intro v hv; simp [Option.mem_def] at hv; omega)
    (by norm_num)
    (by intro x hx; simp at hx; omega)).2 2 (by norm_num)⟩

end Recall
